import Mathlib

/-!
Verification of the `conflux-portal` token-detection controller and the
`Identicon` avatar renderer against their natural-language specification.

The repository ships the test suite of `DetectTokensController` together with
the `Identicon` React component.  The controller itself
(`app/scripts/controllers/detect-tokens`) and the preferences collaborator are
not part of the sources, so their behaviour is modelled from the specification;
the `Identicon` render function is embedded directly from
`src/ui/app/components/ui/identicon/identicon.component.js`.
-/

namespace ConfluxPortal

/-- A candidate token entry from the external static token list:
`{address, symbol, decimals}`. -/
structure Candidate where
  address  : String
  symbol   : String
  decimals : Nat
deriving DecidableEq

/-- A token entry as stored in the preferences token list. -/
structure Token where
  address  : String
  symbol   : String
  decimals : Nat
deriving DecidableEq

/-- Addresses of the entries of a preferences token list, in order. -/
def tokenKeys (tokens : List Token) : List String :=
  tokens.map Token.address

/-- Modelled from the spec: the preferences collaborator (not under `src/`)
exposes `addToken(address, symbol, decimals)`, an idempotent upsert keyed by
address — the first entry with the same address is replaced in place,
otherwise the new entry is appended. -/
def addToken : List Token → Token → List Token
  | [], t => [t]
  | x :: xs, t =>
    if x.address == t.address then t :: xs else x :: addToken xs t

@[simp] theorem addToken_nil (t : Token) : addToken [] t = [t] := rfl

theorem addToken_cons (x : Token) (xs : List Token) (t : Token) :
    addToken (x :: xs) t =
      if x.address == t.address then t :: xs else x :: addToken xs t := rfl

theorem tokenKeys_addToken (ts : List Token) (t : Token) :
    tokenKeys (addToken ts t) =
      if t.address ∈ tokenKeys ts then tokenKeys ts
      else tokenKeys ts ++ [t.address] := by
  induction ts with
  | nil => simp [addToken, tokenKeys]
  | cons x xs ih =>
    by_cases hx : x.address = t.address
    · simp [addToken_cons, tokenKeys, hx]
    · have hx' : (x.address == t.address) = false := by
        simpa using hx
      by_cases hmem : t.address ∈ tokenKeys xs
      · rw [if_pos hmem] at ih
        have hmem' : t.address ∈ tokenKeys (x :: xs) := by
          simp [tokenKeys] at hmem ⊢
          exact Or.inr hmem
        rw [if_pos hmem']
        simp only [addToken_cons, hx', if_false, Bool.false_eq_true, tokenKeys,
          List.map_cons] at ih ⊢
        rw [ih]
      · rw [if_neg hmem] at ih
        have hmem' : ¬ t.address ∈ tokenKeys (x :: xs) := by
          simp [tokenKeys] at hmem ⊢
          exact ⟨fun h => hx h.symm, hmem⟩
        rw [if_neg hmem']
        simp only [addToken_cons, hx', if_false, Bool.false_eq_true, tokenKeys,
          List.map_cons, List.cons_append] at ih ⊢
        rw [ih]

theorem tokenKeys_addToken_nodup (ts : List Token) (t : Token)
    (h : (tokenKeys ts).Nodup) : (tokenKeys (addToken ts t)).Nodup := by
  rw [tokenKeys_addToken]
  by_cases hmem : t.address ∈ tokenKeys ts
  · simpa [hmem] using h
  · simp only [hmem, if_false]
    simpa [List.nodup_append] using ⟨h, hmem⟩

theorem addToken_idem (ts : List Token) (t : Token) :
    addToken (addToken ts t) t = addToken ts t := by
  induction ts with
  | nil => simp [addToken]
  | cons x xs ih =>
    by_cases hx : x.address = t.address
    · simp [addToken_cons, hx]
    · have hx' : (x.address == t.address) = false := by simpa using hx
      simp [addToken_cons, hx', ih]

theorem mem_addToken_self (ts : List Token) (t : Token) :
    t ∈ addToken ts t := by
  induction ts with
  | nil => simp [addToken]
  | cons x xs ih =>
    by_cases hx : x.address = t.address
    · simp [addToken_cons, hx]
    · have hx' : (x.address == t.address) = false := by simpa using hx
      simp [addToken_cons, hx', ih]

theorem mem_addToken_of_ne (ts : List Token) (t x : Token)
    (hx : x ∈ ts) (hne : x.address ≠ t.address) : x ∈ addToken ts t := by
  induction ts with
  | nil => cases hx
  | cons y ys ih =>
    by_cases hy : y.address = t.address
    · rcases List.mem_cons.mp hx with h | h
      · exact absurd (h ▸ hy) hne
      · simp [addToken_cons, hy, h]
    · have hy' : (y.address == t.address) = false := by simpa using hy
      rcases List.mem_cons.mp hx with h | h
      · simp [addToken_cons, hy', h]
      · simp [addToken_cons, hy', ih h]

theorem addToken_of_mem_nodup (ts : List Token) (t : Token)
    (hnd : (tokenKeys ts).Nodup) (hmem : t ∈ ts) : addToken ts t = ts := by
  induction ts with
  | nil => cases hmem
  | cons x xs ih =>
    rcases List.mem_cons.mp hmem with h | h
    · simp [addToken_cons, h]
    · have hkey : t.address ∈ tokenKeys xs := by
        exact List.mem_map.mpr ⟨t, h, rfl⟩
      have hx : x.address ≠ t.address := by
        intro he
        have : x.address ∉ tokenKeys xs := by
          simpa [tokenKeys] using (List.nodup_cons.mp hnd).1
        exact this (he ▸ hkey)
      have hx' : (x.address == t.address) = false := by simpa using hx
      have hnd' : (tokenKeys xs).Nodup := by
        simpa [tokenKeys] using (List.nodup_cons.mp hnd).2
      simp [addToken_cons, hx', ih hnd' h]

theorem addToken_of_not_mem_keys (ts : List Token) (t : Token)
    (h : t.address ∉ tokenKeys ts) : addToken ts t = ts ++ [t] := by
  induction ts with
  | nil => simp [addToken]
  | cons x xs ih =>
    have hx : x.address ≠ t.address := by
      intro he
      exact h (by simp [tokenKeys, he])
    have hx' : (x.address == t.address) = false := by simpa using hx
    have h' : t.address ∉ tokenKeys xs := by
      intro hm
      exact h (by simp [tokenKeys] at hm ⊢; exact Or.inr hm)
    simp [addToken_cons, hx', ih h']

/-- The fixed sentinel network identifier for which detection is enabled. -/
def MAINNET : String := "mainnet"

/-- Lower-casing of an address, character by character; this is
`String.toLower` (JS `toLowerCase`) unfolded to the character list. -/
def lowerString (s : String) : String := ⟨s.data.map Char.toLower⟩

/-- The preferences entry registered for a detected candidate: the candidate
with its address lower-cased, keeping symbol and decimals. -/
def lowerToken (c : Candidate) : Token :=
  { address := lowerString c.address, symbol := c.symbol,
    decimals := c.decimals }

/-- A balance-query result is positive when the query succeeded with a
non-zero balance; a failed query (`none`) is never positive. -/
def isPositive : Option Nat → Bool
  | some b => decide (0 < b)
  | none => false

/-- Modelled from the spec: one detection pass of `DetectTokensController`
(`detectNewTokens`, not under `src/`).  If the current network type is not the
main network it returns immediately without querying any balance; otherwise it
queries, for each candidate in order, the candidate's balance for the selected
account and, on a positive result, registers the lower-cased token via
`addToken`.  The second component is the log of candidate addresses whose
balance was queried, in order. -/
def detectPass (networkType selectedAddress : String)
    (balanceOf : String → String → Option Nat)
    (candidates : List Candidate) (tokens : List Token) :
    List Token × List String :=
  if networkType ≠ MAINNET then (tokens, [])
  else
    candidates.foldl
      (fun acc c =>
        (if isPositive (balanceOf c.address selectedAddress) then
          addToken acc.1 (lowerToken c)
         else acc.1,
         acc.2 ++ [c.address]))
      (tokens, [])

/-- Candidates whose balance query for the given account succeeds with a
positive balance. -/
def positives (selectedAddress : String)
    (balanceOf : String → String → Option Nat)
    (candidates : List Candidate) : List Candidate :=
  candidates.filter (fun c => isPositive (balanceOf c.address selectedAddress))

/-- Registering a list of tokens one after the other via `addToken`. -/
def registerAll (tokens : List Token) (l : List Token) : List Token :=
  l.foldl addToken tokens

@[simp] theorem registerAll_nil (ts : List Token) : registerAll ts [] = ts := rfl

@[simp] theorem registerAll_cons (ts : List Token) (t : Token) (l : List Token) :
    registerAll ts (t :: l) = registerAll (addToken ts t) l := rfl

theorem detectPass_not_mainnet (networkType selectedAddress : String)
    (balanceOf : String → String → Option Nat)
    (candidates : List Candidate) (tokens : List Token)
    (h : networkType ≠ MAINNET) :
    detectPass networkType selectedAddress balanceOf candidates tokens =
      (tokens, []) := by
  simp [detectPass, h]

theorem detectPass_mainnet_fold (selectedAddress : String)
    (balanceOf : String → String → Option Nat)
    (candidates : List Candidate) (tokens : List Token) (qs : List String) :
    candidates.foldl
      (fun acc c =>
        (if isPositive (balanceOf c.address selectedAddress) then
          addToken acc.1 (lowerToken c)
         else acc.1,
         acc.2 ++ [c.address]))
      (tokens, qs) =
      (registerAll tokens
        ((positives selectedAddress balanceOf candidates).map lowerToken),
       qs ++ candidates.map Candidate.address) := by
  induction candidates generalizing tokens qs with
  | nil => simp [positives]
  | cons c cs ih =>
    by_cases hpos : isPositive (balanceOf c.address selectedAddress)
    · simp only [List.foldl_cons, hpos, if_true, positives, List.filter_cons,
        List.map_cons, registerAll_cons]
      rw [ih]
      simp [positives, List.append_assoc]
    · have hpos' : isPositive (balanceOf c.address selectedAddress) = false := by
        simpa using hpos
      simp only [List.foldl_cons, hpos', Bool.false_eq_true, if_false,
        positives, List.filter_cons, hpos']
      rw [ih]
      simp [positives, List.append_assoc]

theorem detectPass_mainnet (selectedAddress : String)
    (balanceOf : String → String → Option Nat)
    (candidates : List Candidate) (tokens : List Token) :
    detectPass MAINNET selectedAddress balanceOf candidates tokens =
      (registerAll tokens
        ((positives selectedAddress balanceOf candidates).map lowerToken),
       candidates.map Candidate.address) := by
  have h :=
    detectPass_mainnet_fold selectedAddress balanceOf candidates tokens []
  simpa [detectPass] using h

theorem tokenKeys_registerAll_nodup (l : List Token) (ts : List Token)
    (h : (tokenKeys ts).Nodup) : (tokenKeys (registerAll ts l)).Nodup := by
  induction l generalizing ts with
  | nil => simpa using h
  | cons t l ih => exact ih _ (tokenKeys_addToken_nodup ts t h)

theorem mem_registerAll_of_not_mem_keys (l : List Token) (s : List Token)
    (x : Token) (hx : x ∈ s) (hkeys : x.address ∉ l.map Token.address) :
    x ∈ registerAll s l := by
  induction l generalizing s with
  | nil => simpa using hx
  | cons t l ih =>
    have hne : x.address ≠ t.address := by
      intro he
      exact hkeys (by simp [he])
    have hkeys' : x.address ∉ l.map Token.address := by
      intro hm
      exact hkeys (by simp [hm])
    exact ih (addToken s t) (mem_addToken_of_ne s t x hx hne) hkeys'

theorem mem_registerAll_of_mem (l : List Token) (ts : List Token)
    (hnd : (l.map Token.address).Nodup) (x : Token) (hx : x ∈ l) :
    x ∈ registerAll ts l := by
  induction l generalizing ts with
  | nil => cases hx
  | cons t l ih =>
    have hnd' : (l.map Token.address).Nodup := (List.nodup_cons.mp hnd).2
    rcases List.mem_cons.mp hx with h | h
    · subst h
      exact mem_registerAll_of_not_mem_keys l (addToken ts x) x
        (mem_addToken_self ts x) (List.nodup_cons.mp hnd).1
    · exact ih (addToken ts t) hnd' h

theorem registerAll_of_subset (l : List Token) (s : List Token)
    (hnd : (tokenKeys s).Nodup) (hsub : ∀ x ∈ l, x ∈ s) :
    registerAll s l = s := by
  induction l with
  | nil => rfl
  | cons t l ih =>
    have ht : addToken s t = s :=
      addToken_of_mem_nodup s t hnd (hsub t (List.mem_cons_self t l))
    rw [registerAll_cons, ht]
    exact ih fun x hx => hsub x (List.mem_cons_of_mem t hx)

theorem registerAll_idem (l : List Token) (ts : List Token)
    (hts : (tokenKeys ts).Nodup) (hl : (l.map Token.address).Nodup) :
    registerAll (registerAll ts l) l = registerAll ts l := by
  refine registerAll_of_subset l (registerAll ts l)
    (tokenKeys_registerAll_nodup l ts hts) ?_
  exact fun x hx => mem_registerAll_of_mem l ts hl x hx

theorem registerAll_eq_append (l : List Token) (ts : List Token)
    (hnd : (l.map Token.address).Nodup)
    (hdisj : ∀ x ∈ l, x.address ∉ tokenKeys ts) :
    registerAll ts l = ts ++ l := by
  induction l generalizing ts with
  | nil => simp
  | cons t l ih =>
    have ht : addToken ts t = ts ++ [t] :=
      addToken_of_not_mem_keys ts t (hdisj t (List.mem_cons_self t l))
    rw [registerAll_cons, ht]
    have hnd' : (l.map Token.address).Nodup := (List.nodup_cons.mp hnd).2
    have hdisj' : ∀ x ∈ l, x.address ∉ tokenKeys (ts ++ [t]) := by
      intro x hx hmem
      have hxk : x.address ∉ tokenKeys ts := hdisj x (List.mem_cons_of_mem t hx)
      have hxt : x.address ≠ t.address := by
        intro he
        exact (List.nodup_cons.mp hnd).1 (he ▸ List.mem_map.mpr ⟨x, hx, rfl⟩)
      simp [tokenKeys] at hmem hxk
      rcases hmem with hm | hm
      · rcases hm with ⟨a, ha, hae⟩
        exact hxk a ha hae
      · exact hxt hm
    rw [ih (ts ++ [t]) hnd' hdisj']
    simp

theorem registerAll_nil_left (l : List Token)
    (hnd : (l.map Token.address).Nodup) : registerAll [] l = l := by
  have h := registerAll_eq_append l [] hnd (by simp [tokenKeys])
  simpa using h

/-- Transient state of the detect-tokens controller: the externally mutated
flags `isOpen` and `isUnlocked`, the current network type and selected
address, the preferences token list, plus two observation logs — every
candidate address whose balance was queried, and the number of detection
passes invoked. -/
structure DtcState where
  isOpen          : Bool
  isUnlocked      : Bool
  networkType     : String
  selectedAddress : String
  tokens          : List Token
  queries         : List String
  passes          : Nat
deriving DecidableEq

/-- Events driving the controller: a firing of the repeating timer, a change
notification for the selected account, and an update of the keyring
lock-state store. -/
inductive DtcEvent where
  | tick
  | selectAddress (a : String)
  | keyringUpdate (isUnlocked : Bool)
deriving DecidableEq

/-- Modelled from the spec: invoking one detection pass on the controller
state — the token list and query log are updated by `detectPass` and the
pass counter is incremented. -/
def runPass (balanceOf : String → String → Option Nat)
    (candidates : List Candidate) (s : DtcState) : DtcState :=
  let r := detectPass s.networkType s.selectedAddress balanceOf candidates s.tokens
  { s with tokens := r.1, queries := s.queries ++ r.2, passes := s.passes + 1 }

/-- Modelled from the spec: the controller's reaction to one event
(`DetectTokensController` is not under `src/`).  A timer firing invokes a
detection pass only when `isOpen && isUnlocked`; a change of the selected
account invokes an immediate pass; a keyring update transitioning from locked
to unlocked invokes an immediate pass. -/
def step (balanceOf : String → String → Option Nat)
    (candidates : List Candidate) : DtcEvent → DtcState → DtcState
  | .tick, s =>
    if s.isOpen && s.isUnlocked then runPass balanceOf candidates s else s
  | .selectAddress a, s =>
    if a == s.selectedAddress then s
    else runPass balanceOf candidates { s with selectedAddress := a }
  | .keyringUpdate u, s =>
    if u && !s.isUnlocked then
      runPass balanceOf candidates { s with isUnlocked := true }
    else { s with isUnlocked := u }

/-- Iterated timer firings: `n` consecutive elapsed timer intervals. -/
def ticks (balanceOf : String → String → Option Nat)
    (candidates : List Candidate) : Nat → DtcState → DtcState
  | 0, s => s
  | n + 1, s => ticks balanceOf candidates n (step balanceOf candidates .tick s)

/-- The default polling interval of the controller, in milliseconds. -/
def defaultInterval : Nat := 180000

/-- Modelled from the spec: the interval stored at construction —
`{interval?: number (default 180000ms)}`. -/
def mkInterval : Option Nat → Nat
  | some i => i
  | none => defaultInterval

/-- Modelled from the spec: the time, in ms since construction, of the k-th
firing (0-based) of a repeating timer with period `interval`, i.e. the timer
fires at `interval`, `2 * interval`, `3 * interval`, ... -/
def fireTime (interval k : Nat) : Nat := (k + 1) * interval

/-- An entry of the external contract-metadata map; only its `logo` field is
inspected by `Identicon.render`. -/
structure ContractEntry where
  logo : Option String
deriving DecidableEq

/-- Props of the `Identicon` component
(`src/ui/app/components/ui/identicon/identicon.component.js`).  `address` and
`image` are optional string props (`none` models a JS `undefined`). -/
structure IdenticonProps where
  address    : Option String
  image      : Option String
  diameter   : Nat
  useBlockie : Bool
  addBorder  : Bool
deriving DecidableEq

/-- JS truthiness of an optional string prop: `undefined` and the empty
string are falsy, every other string is truthy. -/
def strTruthy : Option String → Bool
  | none => false
  | some s => !s.isEmpty

/-- Abstract render tree produced by `Identicon.render`: the `img` tag of
`renderImage`, the `Jazzicon` element of `renderJazzicon`, the blockie `div`
of `renderBlockie`, the address-wrapper `div` (with the
`identicon__address-wrapper` class if and only if `addBorder`), and the
default `eth_logo.svg` placeholder `img`. -/
inductive RenderResult where
  | imageTag (src : Option String) (diameter : Nat)
  | jazziconTag (address : Option String) (diameter : Nat)
  | blockieTag (address : Option String) (diameter : Nat)
  | addressWrapper (addBorder : Bool) (inner : RenderResult)
  | defaultLogo (diameter : Nat)
deriving DecidableEq

/-- Embeds `Identicon.renderImage`: an `img` with `src={image}`. -/
def renderImage (p : IdenticonProps) : RenderResult :=
  .imageTag p.image p.diameter

/-- Embeds `Identicon.renderJazzicon`: a `Jazzicon` keyed by `address`. -/
def renderJazzicon (p : IdenticonProps) : RenderResult :=
  .jazziconTag p.address p.diameter

/-- Embeds `Identicon.renderBlockie`: a `div` holding a `BlockieIdenticon`
keyed by `address`. -/
def renderBlockie (p : IdenticonProps) : RenderResult :=
  .blockieTag p.address p.diameter

/-- Truthiness of `contractMap[checksummedAddress] &&
contractMap[checksummedAddress].logo`. -/
def hasContractLogo (contractMap : String → Option ContractEntry)
    (checksummedAddress : String) : Bool :=
  match contractMap checksummedAddress with
  | some e => strTruthy e.logo
  | none => false

/-- Embeds `Identicon.render`.  The external collaborators `checksumAddress`
and the contract-metadata map are opaque parameters.  Mirrors the source:
`if (image)` renders the image; else `if (address)` checksums the address,
forces the jazzicon when a contract logo entry exists, and otherwise wraps
the blockie-or-jazzicon choice in the address-wrapper `div`; else renders the
default logo placeholder. -/
def identiconRender (checksumAddress : String → String)
    (contractMap : String → Option ContractEntry)
    (p : IdenticonProps) : RenderResult :=
  if strTruthy p.image then renderImage p
  else if strTruthy p.address then
    let checksummedAddress := checksumAddress (p.address.getD "")
    if hasContractLogo contractMap checksummedAddress then renderJazzicon p
    else
      .addressWrapper p.addBorder
        (if p.useBlockie then renderBlockie p else renderJazzicon p)
  else .defaultLogo p.diameter

/-- Whether a render result is one of the two generated, address-derived
avatars (jazzicon or blockie), possibly inside the address-wrapper `div`. -/
def isGeneratedAvatar : RenderResult → Bool
  | .jazziconTag _ _ => true
  | .blockieTag _ _ => true
  | .addressWrapper _ inner => isGeneratedAvatar inner
  | _ => false

theorem map_address_map_lowerToken (l : List Candidate) :
    (l.map lowerToken).map Token.address = l.map (fun c => lowerString c.address) := by
  induction l with
  | nil => rfl
  | cons c l ih => simp [lowerToken, ih]

theorem positives_sublist (selectedAddress : String)
    (balanceOf : String → String → Option Nat) (candidates : List Candidate) :
    (positives selectedAddress balanceOf candidates).Sublist candidates :=
  List.filter_sublist candidates

theorem positives_lower_nodup (selectedAddress : String)
    (balanceOf : String → String → Option Nat) (candidates : List Candidate)
    (h : (candidates.map (fun c => lowerString c.address)).Nodup) :
    (((positives selectedAddress balanceOf candidates).map lowerToken).map
      Token.address).Nodup := by
  rw [map_address_map_lowerToken]
  exact h.sublist
    ((positives_sublist selectedAddress balanceOf candidates).map _)

theorem step_tick_of_inactive (balanceOf : String → String → Option Nat)
    (candidates : List Candidate) (s : DtcState)
    (h : s.isOpen = false ∨ s.isUnlocked = false) :
    step balanceOf candidates .tick s = s := by
  rcases h with h | h <;> simp [step, h]

theorem ticks_of_inactive (balanceOf : String → String → Option Nat)
    (candidates : List Candidate) (s : DtcState) (n : Nat)
    (h : s.isOpen = false ∨ s.isUnlocked = false) :
    ticks balanceOf candidates n s = s := by
  induction n with
  | zero => rfl
  | succ n ih =>
    rw [ticks, step_tick_of_inactive balanceOf candidates s h]
    exact ih

/-- C1: on the main network, with the controller open and unlocked and an
empty preferences list, a timer-driven detection pass registers exactly the
candidates whose balance query for the selected account is positive, each
lower-cased with its symbol and decimals, in candidate-list order. -/
theorem C1_pass_registers_positive_candidates
    (balanceOf : String → String → Option Nat) (candidates : List Candidate)
    (s : DtcState) (hopen : s.isOpen = true) (hunlocked : s.isUnlocked = true)
    (hnet : s.networkType = MAINNET) (htok : s.tokens = [])
    (hnd : (candidates.map (fun c => lowerString c.address)).Nodup) :
    (step balanceOf candidates .tick s).tokens =
      (positives s.selectedAddress balanceOf candidates).map lowerToken := by
  have hnd' := positives_lower_nodup s.selectedAddress balanceOf candidates hnd
  simp only [step, hopen, hunlocked, Bool.and_self, if_true, runPass, hnet,
    detectPass_mainnet, htok]
  exact registerAll_nil_left _ hnd'

/-- C2: a detection pass on a network other than the main network returns the
token list unchanged and queries no candidate balance, even when the
controller is open and unlocked. -/
theorem C2_no_detection_off_mainnet (networkType selectedAddress : String)
    (balanceOf : String → String → Option Nat) (candidates : List Candidate)
    (tokens : List Token) (s : DtcState) (hnet : networkType ≠ MAINNET) :
    detectPass networkType selectedAddress balanceOf candidates tokens =
      (tokens, []) ∧
    (s.networkType = networkType → s.isOpen = true → s.isUnlocked = true →
      (step balanceOf candidates .tick s).tokens = s.tokens ∧
      (step balanceOf candidates .tick s).queries = s.queries) := by
  refine ⟨detectPass_not_mainnet _ _ _ _ _ hnet, ?_⟩
  intro hs hopen hunlocked
  have hs' : s.networkType ≠ MAINNET := hs ▸ hnet
  constructor <;>
    simp [step, hopen, hunlocked, runPass,
      detectPass_not_mainnet s.networkType s.selectedAddress balanceOf
        candidates s.tokens hs']

/-- C3: in any controller state with `isOpen = false` or
`isUnlocked = false`, timer firings never perform a candidate balance query:
however many intervals elapse, the query log (indeed the whole state) is
unchanged. -/
theorem C3_no_queries_when_closed_or_locked
    (balanceOf : String → String → Option Nat) (candidates : List Candidate)
    (s : DtcState) (n : Nat)
    (h : s.isOpen = false ∨ s.isUnlocked = false) :
    (ticks balanceOf candidates n s).queries = s.queries ∧
    ticks balanceOf candidates n s = s := by
  have he := ticks_of_inactive balanceOf candidates s n h
  exact ⟨by rw [he], he⟩

/-- C4: `addToken` is an idempotent upsert keyed by address — registering the
same token twice equals registering it once, registration never introduces a
duplicate address, and running the same main-network detection pass twice
leaves the token list equal to running it once. -/
theorem C4_registration_is_idempotent (selectedAddress : String)
    (balanceOf : String → String → Option Nat) (candidates : List Candidate)
    (ts : List Token) (t : Token) (hts : (tokenKeys ts).Nodup)
    (hcs : (candidates.map (fun c => lowerString c.address)).Nodup) :
    addToken (addToken ts t) t = addToken ts t ∧
    (tokenKeys (addToken ts t)).Nodup ∧
    (detectPass MAINNET selectedAddress balanceOf candidates
        (detectPass MAINNET selectedAddress balanceOf candidates ts).1).1 =
      (detectPass MAINNET selectedAddress balanceOf candidates ts).1 := by
  refine ⟨addToken_idem ts t, tokenKeys_addToken_nodup ts t hts, ?_⟩
  have hnd := positives_lower_nodup selectedAddress balanceOf candidates hcs
  simp only [detectPass_mainnet]
  exact registerAll_idem _ ts hts hnd

/-- C5: each subscribed external event triggers an immediate detection pass:
a change of the selected account to a different address increments the pass
counter, and a keyring update from locked to unlocked increments the pass
counter. -/
theorem C5_events_trigger_pass (balanceOf : String → String → Option Nat)
    (candidates : List Candidate) (s : DtcState) (a : String)
    (hne : a ≠ s.selectedAddress) :
    (step balanceOf candidates (.selectAddress a) s).passes = s.passes + 1 ∧
    (s.isUnlocked = false →
      (step balanceOf candidates (.keyringUpdate true) s).passes =
        s.passes + 1) := by
  have hne' : (a == s.selectedAddress) = false := by simpa using hne
  constructor
  · simp [step, hne', runPass]
  · intro hu
    simp [step, hu, runPass]

/-- C6: with interval `N > 0` the repeating timer fires first at time `N`,
never earlier, and each later firing is exactly `N` after the previous one;
an omitted interval defaults to 180000 ms while an explicit one (as in the
test, 1337) is stored as given. -/
theorem C6_interval_and_first_firing (N t k : Nat) :
    mkInterval (some 1337) = 1337 ∧
    mkInterval none = 180000 ∧
    fireTime N 0 = N ∧
    fireTime N (k + 1) = fireTime N k + N ∧
    (t < N → t < fireTime N k) := by
  refine ⟨rfl, rfl, one_mul N, by rw [fireTime, fireTime, Nat.succ_mul], ?_⟩
  intro ht
  have hle : N ≤ (k + 1) * N :=
    le_mul_of_one_le_left (Nat.zero_le N) (Nat.succ_le_succ (Nat.zero_le k))
  exact lt_of_lt_of_le ht hle

/-- C7: a failed balance query for one candidate does not abort the pass:
every candidate of the pass is still queried in order, and the resulting
token list equals that of the pass run without the failing candidate. -/
theorem C7_failed_query_does_not_abort (selectedAddress : String)
    (balanceOf : String → String → Option Nat) (pre post : List Candidate)
    (c : Candidate) (ts : List Token)
    (hfail : balanceOf c.address selectedAddress = none) :
    (detectPass MAINNET selectedAddress balanceOf (pre ++ c :: post) ts).1 =
      (detectPass MAINNET selectedAddress balanceOf (pre ++ post) ts).1 ∧
    (detectPass MAINNET selectedAddress balanceOf (pre ++ c :: post) ts).2 =
      (pre ++ c :: post).map Candidate.address := by
  have hc : isPositive (balanceOf c.address selectedAddress) = false := by
    rw [hfail]; rfl
  have hpos : positives selectedAddress balanceOf (pre ++ c :: post) =
      positives selectedAddress balanceOf (pre ++ post) := by
    simp [positives, List.filter_append, List.filter_cons, hc]
  constructor
  · simp only [detectPass_mainnet, hpos]
  · simp only [detectPass_mainnet]

/-- C8: `Identicon.render` selects its strategy by fixed priority — a truthy
`image` prop renders that image at the given diameter; otherwise a truthy
`address` prop renders an address-derived generated avatar; otherwise the
default logo placeholder is rendered. -/
theorem C8_render_priority (checksumAddress : String → String)
    (contractMap : String → Option ContractEntry) (p : IdenticonProps) :
    (strTruthy p.image = true →
      identiconRender checksumAddress contractMap p =
        .imageTag p.image p.diameter) ∧
    (strTruthy p.image = false → strTruthy p.address = true →
      isGeneratedAvatar (identiconRender checksumAddress contractMap p) =
        true) ∧
    (strTruthy p.image = false → strTruthy p.address = false →
      identiconRender checksumAddress contractMap p =
        .defaultLogo p.diameter) := by
  refine ⟨fun himg => by simp [identiconRender, himg, renderImage], ?_, ?_⟩
  · intro himg haddr
    by_cases hlogo :
        hasContractLogo contractMap (checksumAddress (p.address.getD ""))
    · simp [identiconRender, himg, haddr, hlogo, renderJazzicon,
        isGeneratedAvatar]
    · by_cases hb : p.useBlockie <;>
        simp [identiconRender, himg, haddr, hlogo, hb, renderJazzicon,
          renderBlockie, isGeneratedAvatar]
  · intro himg haddr
    simp [identiconRender, himg, haddr]

/-- C9: with no truthy `image` and a truthy `address`, a contract-metadata
logo entry for the checksummed address forces the jazzicon regardless of
`useBlockie`; without such an entry, `useBlockie` chooses the blockie or the
jazzicon inside the address wrapper, and both generated avatars depend only
on the `address` and `diameter` props. -/
theorem C9_logo_override_and_blockie_choice (checksumAddress : String → String)
    (contractMap : String → Option ContractEntry) (p : IdenticonProps)
    (himg : strTruthy p.image = false) (haddr : strTruthy p.address = true) :
    (hasContractLogo contractMap (checksumAddress (p.address.getD "")) = true →
      identiconRender checksumAddress contractMap p =
        .jazziconTag p.address p.diameter) ∧
    (hasContractLogo contractMap (checksumAddress (p.address.getD "")) = false →
      identiconRender checksumAddress contractMap p =
        .addressWrapper p.addBorder
          (if p.useBlockie then .blockieTag p.address p.diameter
           else .jazziconTag p.address p.diameter)) ∧
    (∀ q : IdenticonProps, q.address = p.address → q.diameter = p.diameter →
      renderJazzicon q = renderJazzicon p ∧ renderBlockie q = renderBlockie p) := by
  refine ⟨?_, ?_, ?_⟩
  · intro hlogo
    simp [identiconRender, himg, haddr, hlogo, renderJazzicon]
  · intro hlogo
    by_cases hb : p.useBlockie <;>
      simp [identiconRender, himg, haddr, hlogo, hb, renderJazzicon,
        renderBlockie]
  · intro q ha hd
    simp [renderJazzicon, renderBlockie, ha, hd]

/-- C10: `Identicon` treats empty-string props as absent — an `image` equal
to `""` renders exactly as an absent `image`, and with no truthy `image` an
`address` equal to `""` falls through to the default logo placeholder. -/
theorem C10_empty_string_props_absent (checksumAddress : String → String)
    (contractMap : String → Option ContractEntry) (p : IdenticonProps)
    (himg : p.image = some "") :
    identiconRender checksumAddress contractMap p =
      identiconRender checksumAddress contractMap { p with image := none } ∧
    (p.address = some "" →
      identiconRender checksumAddress contractMap p =
        .defaultLogo p.diameter) := by
  have himg' : strTruthy p.image = false := by
    rw [himg]; rfl
  constructor
  · simp [identiconRender, himg, strTruthy, renderImage, renderJazzicon,
      renderBlockie]
    intro h
    exact absurd h (by decide)
  · intro ha
    have ha' : strTruthy p.address = false := by
      rw [ha]; rfl
    simp [identiconRender, himg', ha']

/-- Concrete balance oracle used by the witnesses: candidate `0xA` holds a
positive balance, `0xB` holds zero, and any other query fails. -/
def balW : String → String → Option Nat := fun tok _acc =>
  if tok = "0xA" then some 2 else if tok = "0xB" then some 0 else none

/-- Concrete candidate with a positive balance under `balW`. -/
def candAW : Candidate := { address := "0xA", symbol := "J8T", decimals := 8 }

/-- Concrete candidate with a zero balance under `balW`. -/
def candBW : Candidate := { address := "0xB", symbol := "XNK", decimals := 18 }

/-- Concrete candidate whose balance query fails under `balW`. -/
def candFailW : Candidate := { address := "0xD", symbol := "DDD", decimals := 6 }

/-- Concrete candidate list used by the witnesses. -/
def candsW : List Candidate := [candAW, candBW]

/-- Concrete open, unlocked, main-network controller state. -/
def stateW : DtcState :=
  { isOpen := true, isUnlocked := true, networkType := "mainnet",
    selectedAddress := "0xE", tokens := [], queries := [], passes := 0 }

/-- Concrete open but locked controller state. -/
def stateLockedW : DtcState := { stateW with isUnlocked := false }

/-- Concrete open, unlocked controller state on a test network. -/
def stateTestnetW : DtcState := { stateW with networkType := "rinkeby" }

/-- Concrete non-empty preferences token list. -/
def tsW : List Token := [{ address := "0xc", symbol := "CCC", decimals := 2 }]

/-- Concrete token used by the `addToken` witness. -/
def tokW : Token := { address := "0xa", symbol := "J8T", decimals := 8 }

theorem C1_pass_registers_positive_candidates_witness :
    (candsW.map (fun c => lowerString c.address)).Nodup ∧
    (step balW candsW .tick stateW).tokens =
      (positives stateW.selectedAddress balW candsW).map lowerToken :=
  ⟨by decide,
   C1_pass_registers_positive_candidates balW candsW stateW rfl rfl rfl rfl
     (by decide)⟩

theorem C2_no_detection_off_mainnet_witness :
    "rinkeby" ≠ MAINNET ∧
    (detectPass "rinkeby" "0xE" balW candsW tsW = (tsW, []) ∧
     (stateTestnetW.networkType = "rinkeby" → stateTestnetW.isOpen = true →
       stateTestnetW.isUnlocked = true →
       (step balW candsW .tick stateTestnetW).tokens = stateTestnetW.tokens ∧
       (step balW candsW .tick stateTestnetW).queries =
         stateTestnetW.queries)) :=
  ⟨by decide,
   C2_no_detection_off_mainnet "rinkeby" "0xE" balW candsW tsW stateTestnetW
     (by decide)⟩

theorem C3_no_queries_when_closed_or_locked_witness :
    (stateLockedW.isOpen = false ∨ stateLockedW.isUnlocked = false) ∧
    ((ticks balW candsW 3 stateLockedW).queries = stateLockedW.queries ∧
     ticks balW candsW 3 stateLockedW = stateLockedW) :=
  ⟨by decide,
   C3_no_queries_when_closed_or_locked balW candsW stateLockedW 3 (by decide)⟩

theorem C4_registration_is_idempotent_witness :
    (tokenKeys tsW).Nodup ∧
    (candsW.map (fun c => lowerString c.address)).Nodup ∧
    (addToken (addToken tsW tokW) tokW = addToken tsW tokW ∧
     (tokenKeys (addToken tsW tokW)).Nodup ∧
     (detectPass MAINNET "0xE" balW candsW
         (detectPass MAINNET "0xE" balW candsW tsW).1).1 =
       (detectPass MAINNET "0xE" balW candsW tsW).1) :=
  ⟨by decide, by decide,
   C4_registration_is_idempotent "0xE" balW candsW tsW tokW (by decide)
     (by decide)⟩

theorem C5_events_trigger_pass_witness :
    "0xF" ≠ stateLockedW.selectedAddress ∧
    ((step balW candsW (.selectAddress "0xF") stateLockedW).passes =
       stateLockedW.passes + 1 ∧
     (stateLockedW.isUnlocked = false →
       (step balW candsW (.keyringUpdate true) stateLockedW).passes =
         stateLockedW.passes + 1)) :=
  ⟨by decide,
   C5_events_trigger_pass balW candsW stateLockedW "0xF" (by decide)⟩

theorem C6_interval_and_first_firing_witness :
    mkInterval (some 1337) = 1337 ∧
    mkInterval none = 180000 ∧
    fireTime 7 0 = 7 ∧
    fireTime 7 (2 + 1) = fireTime 7 2 + 7 ∧
    (5 < 7 → 5 < fireTime 7 2) :=
  C6_interval_and_first_firing 7 5 2

theorem C7_failed_query_does_not_abort_witness :
    balW candFailW.address "0xE" = none ∧
    ((detectPass MAINNET "0xE" balW ([candAW] ++ candFailW :: [candBW]) tsW).1 =
       (detectPass MAINNET "0xE" balW ([candAW] ++ [candBW]) tsW).1 ∧
     (detectPass MAINNET "0xE" balW ([candAW] ++ candFailW :: [candBW]) tsW).2 =
       ([candAW] ++ candFailW :: [candBW]).map Candidate.address) :=
  ⟨by decide,
   C7_failed_query_does_not_abort "0xE" balW [candAW] [candBW] candFailW tsW
     (by decide)⟩

/-- Concrete checksum collaborator used by the Identicon witnesses. -/
def checksumW : String → String := fun s => s

/-- Concrete contract-metadata map with a logo entry for `0xL` only. -/
def cmW : String → Option ContractEntry := fun s =>
  if s = "0xL" then some { logo := some "logo.svg" } else none

/-- Concrete props with both an image and an address. -/
def propsImgW : IdenticonProps :=
  { address := some "0xL", image := some "img.png", diameter := 46,
    useBlockie := false, addBorder := false }

/-- Concrete props with an address only, requesting blockies. -/
def propsAddrW : IdenticonProps :=
  { address := some "0xL", image := none, diameter := 46,
    useBlockie := true, addBorder := true }

/-- Concrete props whose image and address are empty strings. -/
def propsEmptyW : IdenticonProps :=
  { address := some "", image := some "", diameter := 10,
    useBlockie := false, addBorder := false }

theorem C8_render_priority_witness :
    (strTruthy propsImgW.image = true →
      identiconRender checksumW cmW propsImgW =
        .imageTag propsImgW.image propsImgW.diameter) ∧
    (strTruthy propsImgW.image = false → strTruthy propsImgW.address = true →
      isGeneratedAvatar (identiconRender checksumW cmW propsImgW) = true) ∧
    (strTruthy propsImgW.image = false → strTruthy propsImgW.address = false →
      identiconRender checksumW cmW propsImgW =
        .defaultLogo propsImgW.diameter) :=
  C8_render_priority checksumW cmW propsImgW

theorem C9_logo_override_and_blockie_choice_witness :
    (hasContractLogo cmW (checksumW (propsAddrW.address.getD "")) = true →
      identiconRender checksumW cmW propsAddrW =
        .jazziconTag propsAddrW.address propsAddrW.diameter) ∧
    (hasContractLogo cmW (checksumW (propsAddrW.address.getD "")) = false →
      identiconRender checksumW cmW propsAddrW =
        .addressWrapper propsAddrW.addBorder
          (if propsAddrW.useBlockie then
            .blockieTag propsAddrW.address propsAddrW.diameter
           else .jazziconTag propsAddrW.address propsAddrW.diameter)) ∧
    (∀ q : IdenticonProps, q.address = propsAddrW.address →
      q.diameter = propsAddrW.diameter →
      renderJazzicon q = renderJazzicon propsAddrW ∧
      renderBlockie q = renderBlockie propsAddrW) :=
  C9_logo_override_and_blockie_choice checksumW cmW propsAddrW rfl rfl

theorem C10_empty_string_props_absent_witness :
    propsEmptyW.image = some "" ∧
    (identiconRender checksumW cmW propsEmptyW =
       identiconRender checksumW cmW { propsEmptyW with image := none } ∧
     (propsEmptyW.address = some "" →
       identiconRender checksumW cmW propsEmptyW =
         .defaultLogo propsEmptyW.diameter)) :=
  ⟨rfl, C10_empty_string_props_absent checksumW cmW propsEmptyW rfl⟩

end ConfluxPortal
